import Mathlib

/-!
Verification of the pluto_pico motor-driver core (`motordriver.c`).

This file gives a shallow embedding of the motor-control module: the
`motor_t` record, the speed actuator `set_speed`, the blocking ramp
`motordriver_adjust_motor_speed_blocking`, the direction setter
`motordriver_set_dir`, the timer expiry handler
`motor_speed_adjust_timer_expiry_function`, the non-blocking ramp
`motordriver_adjust_motor_speed_non_blocking`, the dual-motor coordinator
`set_motors`, and `motordriver_stop_motors`.

Modelling conventions:
* `uint32_t` fields are `Nat`s; where C arithmetic may wrap, the
  operations `uadd`/`usub` reduce modulo `2 ^ 32` exactly as unsigned
  32-bit arithmetic does.
* The PWM write inside `set_speed` can fail (`pwm_set` returning a
  negative value); the possible outcome of that hardware call is passed
  in as a boolean `ok` parameter.  On success the duty cycle reaches the
  hardware (recorded in `pwm_duty`) and the `speed` field is updated; on
  failure neither happens, exactly as in the C function.
* The per-motor one-shot timer is modelled by a `timer_armed` flag.  The
  timer is started with `K_NO_WAIT` as period, so it is a one-shot: when
  the expiry handler runs the timer is no longer armed, and it is armed
  again only by an explicit `k_timer_start`.
* `while` loops (the blocking ramp and the coordinator's poll loop) are
  modelled with explicit fuel and return `none` when the fuel is
  exhausted before the loop's exit condition is met: a `none` result
  means the C loop has not terminated within that many iterations.
* Mutex operations serialize every access in the C code; the model is
  sequential, so they are not represented.
* During `set_motors`'s poll loop the only writer of a waited-on motor's
  `speed` is that motor's timer expiry handler; the wait is therefore
  modelled by running `fuel` timer expiries on each motor being waited
  on and then checking the loop's exit condition, as the C code does.
-/

namespace PlutoPico

/-- Modulus of `uint32_t` arithmetic. -/
def U32 : Nat := 4294967296

/-- Addition of two `uint32_t` values (wraps modulo `2 ^ 32`). -/
def uadd (a b : Nat) : Nat := (a + b) % U32

/-- Subtraction of two `uint32_t` values (wraps modulo `2 ^ 32`). -/
def usub (a b : Nat) : Nat := (a + (U32 - b % U32)) % U32

theorem uadd_of_lt {a b : Nat} (h : a + b < U32) : uadd a b = a + b := by
  unfold uadd
  exact Nat.mod_eq_of_lt h

theorem usub_of_le {a b : Nat} (hba : b ≤ a) (ha : a < U32) : usub a b = a - b := by
  unfold usub
  have hb : b < U32 := Nat.lt_of_le_of_lt hba ha
  rw [Nat.mod_eq_of_lt hb]
  have h1 : a + (U32 - b) = (a - b) + U32 := by omega
  rw [h1, Nat.add_mod_right]
  exact Nat.mod_eq_of_lt (by omega)

/-- Mirror of the mutable state reachable from a `motor_t`
(`inc/pluto_motordriver.h`).  The immutable identity (`name`) and the
opaque hardware descriptors are omitted; of the hardware only the parts
the module reads or writes are kept: the PWM period (`pwm_spec.period`),
the last duty cycle successfully written to the PWM (`pwm_duty`), the
level of the direction GPIO (`gpio_dir`), and whether the one-shot
per-motor timer is currently armed (`timer_armed`). -/
structure MotorState where
  emergency_stop : Bool
  direction : Bool
  target_direction : Bool
  speed : Nat
  target_speed : Nat
  acceleration_rate : Nat
  acceleration_rate_delay : Int
  braking_rate : Nat
  braking_rate_delay : Int
  pwm_period : Nat
  pwm_duty : Nat
  gpio_dir : Bool
  timer_armed : Bool
deriving Repr, DecidableEq

/-- Speed actuator `set_speed(motor, speed_percent)`: clamps the percent
to 100, computes `duty_cycle_ns = period * percent / 100` (in `uint32_t`
arithmetic) and writes it to the PWM.  `ok` is the outcome of the
`pwm_set` hardware call: on failure the error is logged and the `speed`
field is not updated; on success `motor->speed = speed_percent`. -/
def set_speed (ok : Bool) (m : MotorState) (speed_percent : Nat) : MotorState :=
  let sp := if speed_percent > 100 then 100 else speed_percent
  let duty_cycle_ns := (m.pwm_period * sp) % U32 / 100
  if ok then { m with speed := sp, pwm_duty := duty_cycle_ns } else m

/-- Timer expiry handler `motor_speed_adjust_timer_expiry_function`:
runs when the one-shot timer expires (hence with the timer no longer
armed).  Takes one step toward `target_speed` — `MIN(acceleration_rate,
target_speed - speed)` up or `MIN(braking_rate, speed - target_speed)`
down — advances the `speed` field and applies it via `set_speed`, then
re-arms the timer iff `speed != target_speed` still holds. -/
def motor_speed_adjust_timer_expiry_function (ok : Bool) (m : MotorState) : MotorState :=
  let m1 :=
    if m.speed < m.target_speed then
      set_speed ok
        { m with
          speed := m.speed + min m.acceleration_rate (m.target_speed - m.speed),
          timer_armed := false }
        (m.speed + min m.acceleration_rate (m.target_speed - m.speed))
    else if m.target_speed < m.speed then
      set_speed ok
        { m with
          speed := m.speed - min m.braking_rate (m.speed - m.target_speed),
          timer_armed := false }
        (m.speed - min m.braking_rate (m.speed - m.target_speed))
    else { m with timer_armed := false }
  if m1.speed ≠ m1.target_speed then { m1 with timer_armed := true } else m1

/-- Non-blocking ramp `motordriver_adjust_motor_speed_non_blocking`:
rejects a zero rate, clamps the target with `MIN(target_speed, 100)`,
and only when the clamped value differs from the current `target_speed`
stores it and starts the timer (initial delay `ADJUST_SPEED_DELAY_MS`). -/
def motordriver_adjust_motor_speed_non_blocking (m : MotorState) (target_speed : Nat) :
    MotorState :=
  if m.acceleration_rate = 0 ∨ m.braking_rate = 0 then m
  else
    let new_target_speed := min target_speed 100
    if m.target_speed ≠ new_target_speed then
      { m with target_speed := new_target_speed, timer_armed := true }
    else m

/-- One iteration of the `while (motor->speed != target_speed)` loop of
`motordriver_adjust_motor_speed_blocking`: compute the step with the
C conditional (in `uint32_t` arithmetic), advance `motor->speed`, then
call `set_speed` with the advanced value. -/
def blocking_step (ok : Bool) (m : MotorState) (t : Nat) : MotorState :=
  if m.speed < t then
    let step := if uadd m.speed m.acceleration_rate > t then t - m.speed
                else m.acceleration_rate
    set_speed ok { m with speed := uadd m.speed step } (uadd m.speed step)
  else
    let step := if usub m.speed m.braking_rate < t then m.speed - t
                else m.braking_rate
    set_speed ok { m with speed := usub m.speed step } (usub m.speed step)

/-- The blocking ramp's loop, with explicit fuel: `none` means the loop
has not reached `speed == target` within `fuel` iterations. -/
def ramp_loop (fuel : Nat) (ok : Bool) (m : MotorState) (t : Nat) : Option MotorState :=
  match fuel with
  | 0 => if m.speed = t then some m else none
  | fuel + 1 =>
    if m.speed = t then some m
    else ramp_loop fuel ok (blocking_step ok m t) t

/-- Blocking ramp `motordriver_adjust_motor_speed_blocking`: fails fast
(logs and returns, state untouched) when `acceleration_rate == 0`,
clamps the target to 100, then loops one `blocking_step` per iteration
until `speed == target`. -/
def motordriver_adjust_motor_speed_blocking (fuel : Nat) (ok : Bool) (m : MotorState)
    (target_speed : Nat) : Option MotorState :=
  if m.acceleration_rate = 0 then some m
  else
    let t := if target_speed > 100 then 100 else target_speed
    ramp_loop fuel ok m t

/-- Direction setter `motordriver_set_dir`: no-op when the requested
direction equals the current one; otherwise blocking-ramps the speed to
0, then updates `motor->direction` and writes it to the direction GPIO. -/
def motordriver_set_dir (fuel : Nat) (ok : Bool) (m : MotorState) (dir : Bool) :
    Option MotorState :=
  if m.direction ≠ dir then
    match motordriver_adjust_motor_speed_blocking fuel ok m 0 with
    | none => none
    | some m1 => some { m1 with direction := dir, gpio_dir := dir }
  else some m

/-- Dual-motor coordinator `set_motors(m1, m2, speed1, speed2, dir1, dir2)`:
issues a non-blocking ramp to 0 for each motor whose direction differs
from the requested one, polls until each such motor's `speed` is 0
(modelled by running `fuel` timer expiries on each waited-on motor and
then evaluating the poll loop's exit condition — `none` if the loop
would still be spinning), sleeps `WAIT_DIR_CHANGE_INTERVAL_MS` when any
motor was stopped, calls `motordriver_set_dir` on exactly the stopped
motors, and finally issues the non-blocking ramp with the requested
speeds for both motors. -/
def set_motors (fuel : Nat) (m1 m2 : MotorState) (speed1 speed2 : Nat)
    (dir1 dir2 : Bool) : Option (MotorState × MotorState) :=
  let needToStopM1 := m1.direction ≠ dir1
  let needToStopM2 := m2.direction ≠ dir2
  let m1a := if needToStopM1 then motordriver_adjust_motor_speed_non_blocking m1 0 else m1
  let m2a := if needToStopM2 then motordriver_adjust_motor_speed_non_blocking m2 0 else m2
  let m1b := if needToStopM1 then (motor_speed_adjust_timer_expiry_function true)^[fuel] m1a
             else m1a
  let m2b := if needToStopM2 then (motor_speed_adjust_timer_expiry_function true)^[fuel] m2a
             else m2a
  if (needToStopM1 ∧ m1b.speed ≠ 0) ∨ (needToStopM2 ∧ m2b.speed ≠ 0) then none
  else
    match (if needToStopM1 then motordriver_set_dir fuel true m1b dir1 else some m1b),
          (if needToStopM2 then motordriver_set_dir fuel true m2b dir2 else some m2b) with
    | some m1c, some m2c =>
        some (motordriver_adjust_motor_speed_non_blocking m1c speed1,
              motordriver_adjust_motor_speed_non_blocking m2c speed2)
    | _, _ => none

/-- Emergency stop `motordriver_stop_motors`: issues the non-blocking
ramp to target 0 on both motors and returns immediately. -/
def motordriver_stop_motors (m1 m2 : MotorState) : MotorState × MotorState :=
  (motordriver_adjust_motor_speed_non_blocking m1 0,
   motordriver_adjust_motor_speed_non_blocking m2 0)

/-- Initial state of `motor1` as statically constructed in
`motordriver.c` (speeds 0, rates 10, delays 100, everything off).  The
PWM period comes from the devicetree; a representative 20 ms period in
nanoseconds is used, and no theorem depends on its value. -/
def motor1 : MotorState :=
  { emergency_stop := false
    direction := false
    target_direction := false
    speed := 0
    target_speed := 0
    acceleration_rate := 10
    acceleration_rate_delay := 100
    braking_rate := 10
    braking_rate_delay := 100
    pwm_period := 20000000
    pwm_duty := 0
    gpio_dir := false
    timer_armed := false }

/-- Initial state of `motor2`, identical to `motor1` except for its
hardware wiring (not represented). -/
def motor2 : MotorState := motor1

/-!  Frame lemmas for the speed actuator and the timer expiry handler. -/

theorem set_speed_speed_true (m : MotorState) (p : Nat) :
    (set_speed true m p).speed = min p 100 := by
  unfold set_speed
  by_cases h : p > 100 <;> simp [h] <;> omega

theorem set_speed_speed_false (m : MotorState) (p : Nat) :
    (set_speed false m p).speed = m.speed := by
  unfold set_speed
  simp

theorem set_speed_frame (ok : Bool) (m : MotorState) (p : Nat) :
    (set_speed ok m p).emergency_stop = m.emergency_stop ∧
    (set_speed ok m p).direction = m.direction ∧
    (set_speed ok m p).target_direction = m.target_direction ∧
    (set_speed ok m p).target_speed = m.target_speed ∧
    (set_speed ok m p).acceleration_rate = m.acceleration_rate ∧
    (set_speed ok m p).acceleration_rate_delay = m.acceleration_rate_delay ∧
    (set_speed ok m p).braking_rate = m.braking_rate ∧
    (set_speed ok m p).braking_rate_delay = m.braking_rate_delay ∧
    (set_speed ok m p).pwm_period = m.pwm_period ∧
    (set_speed ok m p).gpio_dir = m.gpio_dir ∧
    (set_speed ok m p).timer_armed = m.timer_armed := by
  cases ok <;> simp [set_speed]

theorem tick_frame (ok : Bool) (m : MotorState) :
    (motor_speed_adjust_timer_expiry_function ok m).emergency_stop = m.emergency_stop ∧
    (motor_speed_adjust_timer_expiry_function ok m).direction = m.direction ∧
    (motor_speed_adjust_timer_expiry_function ok m).target_direction = m.target_direction ∧
    (motor_speed_adjust_timer_expiry_function ok m).target_speed = m.target_speed ∧
    (motor_speed_adjust_timer_expiry_function ok m).acceleration_rate = m.acceleration_rate ∧
    (motor_speed_adjust_timer_expiry_function ok m).acceleration_rate_delay
      = m.acceleration_rate_delay ∧
    (motor_speed_adjust_timer_expiry_function ok m).braking_rate = m.braking_rate ∧
    (motor_speed_adjust_timer_expiry_function ok m).braking_rate_delay
      = m.braking_rate_delay ∧
    (motor_speed_adjust_timer_expiry_function ok m).pwm_period = m.pwm_period ∧
    (motor_speed_adjust_timer_expiry_function ok m).gpio_dir = m.gpio_dir := by
  cases ok <;>
  · unfold motor_speed_adjust_timer_expiry_function set_speed
    dsimp only
    split_ifs <;> simp_all

theorem tick_speed_accel (ok : Bool) (m : MotorState)
    (h : m.speed < m.target_speed) (ht : m.target_speed ≤ 100) :
    (motor_speed_adjust_timer_expiry_function ok m).speed
      = m.speed + min m.acceleration_rate (m.target_speed - m.speed) := by
  have hb : m.speed + min m.acceleration_rate (m.target_speed - m.speed) ≤ 100 := by
    have h2 : min m.acceleration_rate (m.target_speed - m.speed) ≤ m.target_speed - m.speed :=
      Nat.min_le_right _ _
    omega
  cases ok <;>
  · unfold motor_speed_adjust_timer_expiry_function set_speed
    dsimp only
    split_ifs <;> simp_all <;> omega

theorem tick_speed_brake (ok : Bool) (m : MotorState)
    (h : m.target_speed < m.speed) (hs : m.speed ≤ 100) :
    (motor_speed_adjust_timer_expiry_function ok m).speed
      = m.speed - min m.braking_rate (m.speed - m.target_speed) := by
  have hb : m.speed - min m.braking_rate (m.speed - m.target_speed) ≤ 100 := by omega
  cases ok <;>
  · unfold motor_speed_adjust_timer_expiry_function set_speed
    dsimp only
    split_ifs <;> simp_all <;> omega

theorem tick_idle (ok : Bool) (m : MotorState) (h : m.speed = m.target_speed) :
    motor_speed_adjust_timer_expiry_function ok m = { m with timer_armed := false } := by
  unfold motor_speed_adjust_timer_expiry_function
  simp [h]

theorem tick_armed (ok : Bool) (m : MotorState) :
    (motor_speed_adjust_timer_expiry_function ok m).timer_armed = true ↔
      (motor_speed_adjust_timer_expiry_function ok m).speed ≠ m.target_speed := by
  cases ok <;>
  · unfold motor_speed_adjust_timer_expiry_function set_speed
    dsimp only
    split_ifs <;> simp_all

/-- Ceiling division: the number of rate-bounded steps needed to cover a
distance (`ceil(d / b)`). -/
def ceilDiv (d b : Nat) : Nat := (d + b - 1) / b

theorem ceilDiv_zero (b : Nat) : ceilDiv 0 b = 0 := by
  unfold ceilDiv
  cases b with
  | zero => rfl
  | succ n => simpa using Nat.div_eq_of_lt (by omega)

theorem ceilDiv_one_of_le {d b : Nat} (h1 : 1 ≤ d) (h2 : d ≤ b) : ceilDiv d b = 1 := by
  unfold ceilDiv
  have hb : 0 < b := by omega
  refine Nat.le_antisymm ?_ ?_
  · rw [Nat.div_le_iff_le_mul_add_pred hb]
    omega
  · rw [Nat.one_le_div_iff hb]
    omega

theorem ceilDiv_succ {d b : Nat} (hb : 0 < b) (h : b < d) :
    ceilDiv d b = ceilDiv (d - b) b + 1 := by
  unfold ceilDiv
  have h1 : d + b - 1 = (d - b + b - 1) + b := by omega
  rw [h1, Nat.add_div_right _ hb]

theorem ceilDiv_le {d b : Nat} (hb : 0 < b) : ceilDiv d b ≤ d := by
  unfold ceilDiv
  rw [Nat.div_le_iff_le_mul_add_pred hb]
  have h2 : d ≤ b * d := Nat.le_mul_of_pos_left d hb
  omega

theorem iterate_tick_frame (n : Nat) (ok : Bool) (m : MotorState) :
    ((motor_speed_adjust_timer_expiry_function ok)^[n] m).direction = m.direction ∧
    ((motor_speed_adjust_timer_expiry_function ok)^[n] m).target_speed = m.target_speed ∧
    ((motor_speed_adjust_timer_expiry_function ok)^[n] m).acceleration_rate
      = m.acceleration_rate ∧
    ((motor_speed_adjust_timer_expiry_function ok)^[n] m).braking_rate = m.braking_rate ∧
    ((motor_speed_adjust_timer_expiry_function ok)^[n] m).gpio_dir = m.gpio_dir ∧
    ((motor_speed_adjust_timer_expiry_function ok)^[n] m).pwm_period = m.pwm_period ∧
    ((motor_speed_adjust_timer_expiry_function ok)^[n] m).emergency_stop
      = m.emergency_stop ∧
    ((motor_speed_adjust_timer_expiry_function ok)^[n] m).target_direction
      = m.target_direction ∧
    ((motor_speed_adjust_timer_expiry_function ok)^[n] m).acceleration_rate_delay
      = m.acceleration_rate_delay ∧
    ((motor_speed_adjust_timer_expiry_function ok)^[n] m).braking_rate_delay
      = m.braking_rate_delay := by
  induction n with
  | zero => simp
  | succ n ih =>
    rw [Function.iterate_succ_apply']
    obtain ⟨e1, d1, td1, t1, a1, ad1, b1, bd1, p1, g1⟩ :=
      tick_frame ok ((motor_speed_adjust_timer_expiry_function ok)^[n] m)
    obtain ⟨D, T, A, B, G, P, E, TD, AD, BD⟩ := ih
    exact ⟨d1.trans D, t1.trans T, a1.trans A, b1.trans B, g1.trans G, p1.trans P,
      e1.trans E, td1.trans TD, ad1.trans AD, bd1.trans BD⟩

/-- A motor that has reached its target is stable: any further tick
leaves the state unchanged (with the one-shot timer unarmed). -/
theorem iterate_tick_idle (n : Nat) (ok : Bool) (m : MotorState)
    (h : m.speed = m.target_speed) :
    (motor_speed_adjust_timer_expiry_function ok)^[n + 1] m
      = { m with timer_armed := false } := by
  induction n with
  | zero => simpa using tick_idle ok m h
  | succ n ih =>
    rw [Function.iterate_succ_apply', ih]
    exact tick_idle ok _ h

/-- Convergence of the timer state machine while accelerating: from
`speed ≤ target_speed`, `ceil((target - speed) / acceleration_rate)`
ticks reach the target exactly. -/
theorem tick_conv_up : ∀ d (m : MotorState), 0 < m.acceleration_rate →
    m.target_speed ≤ 100 → m.speed ≤ m.target_speed → m.target_speed - m.speed = d →
    ((motor_speed_adjust_timer_expiry_function true)^[ceilDiv d m.acceleration_rate] m).speed
      = m.target_speed := by
  intro d
  induction d using Nat.strong_induction_on with
  | _ d ih =>
    intro m hA ht hle hd
    rcases Nat.eq_zero_or_pos d with hd0 | hdpos
    · subst hd0
      rw [ceilDiv_zero]
      simp only [Function.iterate_zero_apply]
      omega
    · have hlt : m.speed < m.target_speed := by omega
      have hstep := tick_speed_accel true m hlt ht
      obtain ⟨e, dd, td, t, a, ad, b, bd, p, g⟩ := tick_frame true m
      rcases le_or_lt d m.acceleration_rate with hda | hda
      · rw [ceilDiv_one_of_le hdpos hda]
        simp only [Function.iterate_one]
        rw [hstep]
        omega
      · rw [ceilDiv_succ hA hda, Function.iterate_succ_apply]
        set m1 := motor_speed_adjust_timer_expiry_function true m with hm1
        have h1 : m1.speed = m.speed + m.acceleration_rate := by
          rw [hstep]; omega
        have hA1 : 0 < m1.acceleration_rate := by rw [a]; exact hA
        have ht1 : m1.target_speed ≤ 100 := by rw [t]; exact ht
        have hle1 : m1.speed ≤ m1.target_speed := by rw [h1, t]; omega
        have hd1 : m1.target_speed - m1.speed = d - m.acceleration_rate := by
          rw [h1, t]; omega
        have hres := ih (d - m.acceleration_rate) (by omega) m1 hA1 ht1 hle1 hd1
        rw [a, t] at hres
        exact hres

/-- Convergence of the timer state machine while braking: from
`target_speed ≤ speed ≤ 100`, `ceil((speed - target) / braking_rate)`
ticks reach the target exactly. -/
theorem tick_conv_down : ∀ d (m : MotorState), 0 < m.braking_rate →
    m.speed ≤ 100 → m.target_speed ≤ m.speed → m.speed - m.target_speed = d →
    ((motor_speed_adjust_timer_expiry_function true)^[ceilDiv d m.braking_rate] m).speed
      = m.target_speed := by
  intro d
  induction d using Nat.strong_induction_on with
  | _ d ih =>
    intro m hB hs hle hd
    rcases Nat.eq_zero_or_pos d with hd0 | hdpos
    · subst hd0
      rw [ceilDiv_zero]
      simp only [Function.iterate_zero_apply]
      omega
    · have hlt : m.target_speed < m.speed := by omega
      have hstep := tick_speed_brake true m hlt hs
      obtain ⟨e, dd, td, t, a, ad, b, bd, p, g⟩ := tick_frame true m
      rcases le_or_lt d m.braking_rate with hdb | hdb
      · rw [ceilDiv_one_of_le hdpos hdb]
        simp only [Function.iterate_one]
        rw [hstep]
        omega
      · rw [ceilDiv_succ hB hdb, Function.iterate_succ_apply]
        set m1 := motor_speed_adjust_timer_expiry_function true m with hm1
        have h1 : m1.speed = m.speed - m.braking_rate := by
          rw [hstep]; omega
        have hB1 : 0 < m1.braking_rate := by rw [b]; exact hB
        have hs1 : m1.speed ≤ 100 := by rw [h1]; omega
        have hle1 : m1.target_speed ≤ m1.speed := by rw [h1, t]; omega
        have hd1 : m1.speed - m1.target_speed = d - m.braking_rate := by
          rw [h1, t]; omega
        have hres := ih (d - m.braking_rate) (by omega) m1 hB1 hs1 hle1 hd1
        rw [b, t] at hres
        exact hres

/-- Number of timer ticks the non-blocking ramp needs to reach the
target: `ceil(|speed - target_speed| / rate)` with the rate of the
required direction of change. -/
def rampTicks (m : MotorState) : Nat :=
  if m.speed ≤ m.target_speed then ceilDiv (m.target_speed - m.speed) m.acceleration_rate
  else ceilDiv (m.speed - m.target_speed) m.braking_rate

/-- After `rampTicks m` or more timer expiries the speed equals the
target and (as soon as at least one tick has run) the timer is unarmed. -/
theorem tick_conv_at (m : MotorState) (j : Nat)
    (hA : 0 < m.acceleration_rate) (hB : 0 < m.braking_rate)
    (hs : m.speed ≤ 100) (ht : m.target_speed ≤ 100) (hj : rampTicks m ≤ j) :
    ((motor_speed_adjust_timer_expiry_function true)^[j] m).speed = m.target_speed ∧
    (0 < j → ((motor_speed_adjust_timer_expiry_function true)^[j] m).timer_armed = false) := by
  have hk : ((motor_speed_adjust_timer_expiry_function true)^[rampTicks m] m).speed
      = m.target_speed := by
    unfold rampTicks
    split_ifs with hcmp
    · exact tick_conv_up (m.target_speed - m.speed) m hA ht hcmp rfl
    · exact tick_conv_down (m.speed - m.target_speed) m hB hs (by omega) rfl
  obtain ⟨n, rfl⟩ : ∃ n, j = n + rampTicks m := ⟨j - rampTicks m, by omega⟩
  rw [Function.iterate_add_apply]
  set s0 := (motor_speed_adjust_timer_expiry_function true)^[rampTicks m] m with hs0
  have ht0 : s0.target_speed = m.target_speed := (iterate_tick_frame _ _ _).2.1
  have hidle : s0.speed = s0.target_speed := by rw [ht0]; exact hk
  cases n with
  | zero =>
    simp only [Function.iterate_zero_apply]
    refine ⟨hk, ?_⟩
    intro hpos
    have hkpos : 0 < rampTicks m := by omega
    obtain ⟨k, hkk⟩ : ∃ k, rampTicks m = k + 1 := ⟨rampTicks m - 1, by omega⟩
    rw [hs0, hkk, Function.iterate_succ_apply']
    set X := (motor_speed_adjust_timer_expiry_function true)^[k] m with hX
    have hXt : X.target_speed = m.target_speed := (iterate_tick_frame _ _ _).2.1
    have hsp : (motor_speed_adjust_timer_expiry_function true X).speed = X.target_speed := by
      rw [hXt]
      have := hk
      rw [hs0, hkk, Function.iterate_succ_apply'] at this
      exact this
    have harm := tick_armed true X
    rw [hXt] at harm
    rw [hXt] at hsp
    rcases Bool.eq_false_or_eq_true
        (motor_speed_adjust_timer_expiry_function true X).timer_armed with hb | hb
    · exact absurd (harm.mp hb) (by simp [hsp])
    · exact hb
  | succ n =>
    rw [iterate_tick_idle n true s0 hidle]
    have hsp : s0.speed = m.target_speed := hk
    exact ⟨hsp, fun _ => rfl⟩

/-- C1: for a motor with positive rates and speed/target in `[0, 100]`,
each timer expiry takes exactly one step toward `target_speed` of size
`min(acceleration_rate, target_speed - speed)` when accelerating and
`min(braking_rate, speed - target_speed)` when braking; no tick changes
the speed by more than the respective rate; any `j ≥ ceil(|speed -
target_speed| / rate)` ticks make the speed equal `target_speed`, the
final tick clamping exactly to the target, after which the timer is not
re-armed. -/
theorem C1_timer_ramp_step_and_convergence (m : MotorState) (j : Nat)
    (hA : 0 < m.acceleration_rate) (hB : 0 < m.braking_rate)
    (hs : m.speed ≤ 100) (ht : m.target_speed ≤ 100) (hj : rampTicks m ≤ j) :
    (m.speed < m.target_speed →
      (motor_speed_adjust_timer_expiry_function true m).speed
        = m.speed + min m.acceleration_rate (m.target_speed - m.speed)) ∧
    (m.target_speed < m.speed →
      (motor_speed_adjust_timer_expiry_function true m).speed
        = m.speed - min m.braking_rate (m.speed - m.target_speed)) ∧
    (motor_speed_adjust_timer_expiry_function true m).speed
      ≤ m.speed + m.acceleration_rate ∧
    m.speed ≤ (motor_speed_adjust_timer_expiry_function true m).speed + m.braking_rate ∧
    ((motor_speed_adjust_timer_expiry_function true)^[j] m).speed = m.target_speed ∧
    (0 < j → ((motor_speed_adjust_timer_expiry_function true)^[j] m).timer_armed = false) := by
  have hconv := tick_conv_at m j hA hB hs ht hj
  refine ⟨fun h => tick_speed_accel true m h ht,
          fun h => tick_speed_brake true m h hs, ?_, ?_, hconv.1, hconv.2⟩
  · rcases Nat.lt_trichotomy m.speed m.target_speed with h | h | h
    · rw [tick_speed_accel true m h ht]
      have := Nat.min_le_left m.acceleration_rate (m.target_speed - m.speed)
      omega
    · rw [tick_idle true m h]
      exact Nat.le_add_right _ _
    · rw [tick_speed_brake true m h hs]
      omega
  · rcases Nat.lt_trichotomy m.speed m.target_speed with h | h | h
    · rw [tick_speed_accel true m h ht]
      omega
    · rw [tick_idle true m h]
      exact Nat.le_add_right _ _
    · rw [tick_speed_brake true m h hs]
      have := Nat.min_le_left m.braking_rate (m.speed - m.target_speed)
      omega

/-- Concrete motor used to witness C1: the initial `motor1` with an
asynchronous target of 55 percent pending. -/
def mC1 : MotorState := { motor1 with target_speed := 55 }

theorem C1_witness :
    (mC1.speed < mC1.target_speed →
      (motor_speed_adjust_timer_expiry_function true mC1).speed
        = mC1.speed + min mC1.acceleration_rate (mC1.target_speed - mC1.speed)) ∧
    (mC1.target_speed < mC1.speed →
      (motor_speed_adjust_timer_expiry_function true mC1).speed
        = mC1.speed - min mC1.braking_rate (mC1.speed - mC1.target_speed)) ∧
    (motor_speed_adjust_timer_expiry_function true mC1).speed
      ≤ mC1.speed + mC1.acceleration_rate ∧
    mC1.speed ≤ (motor_speed_adjust_timer_expiry_function true mC1).speed + mC1.braking_rate ∧
    ((motor_speed_adjust_timer_expiry_function true)^[6] mC1).speed = mC1.target_speed ∧
    (0 < 6 → ((motor_speed_adjust_timer_expiry_function true)^[6] mC1).timer_armed = false) :=
  C1_timer_ramp_step_and_convergence mC1 6 (by decide) (by decide) (by decide) (by decide)
    (by decide)

/-- C10: a timer expiry that runs when `speed == target_speed` changes
no motor field, performs no PWM write, and does not re-arm the timer;
in particular the Idle state (timer unarmed) is a fixed point of the
handler. -/
theorem C10_idle_tick_stable (ok : Bool) (m : MotorState) (h : m.speed = m.target_speed) :
    motor_speed_adjust_timer_expiry_function ok m = { m with timer_armed := false } ∧
    (motor_speed_adjust_timer_expiry_function ok m).speed = m.speed ∧
    (motor_speed_adjust_timer_expiry_function ok m).pwm_duty = m.pwm_duty ∧
    (m.timer_armed = false → motor_speed_adjust_timer_expiry_function ok m = m) := by
  have he := tick_idle ok m h
  refine ⟨he, by rw [he], by rw [he], fun harm => ?_⟩
  rw [he]
  have : m = { m with timer_armed := false } := by
    cases m
    simp_all
  exact this.symm

theorem C10_witness :
    motor_speed_adjust_timer_expiry_function true motor1 = { motor1 with timer_armed := false } ∧
    (motor_speed_adjust_timer_expiry_function true motor1).speed = motor1.speed ∧
    (motor_speed_adjust_timer_expiry_function true motor1).pwm_duty = motor1.pwm_duty ∧
    (motor1.timer_armed = false → motor_speed_adjust_timer_expiry_function true motor1 = motor1) :=
  C10_idle_tick_stable true motor1 (by decide)

/-- C8: the non-blocking ramp is idempotent in its target: a second
call with the same requested target changes nothing (neither
`target_speed` nor the timer state), so the timer is armed at most
once for repeated identical commands. -/
theorem C8_adjust_async_idempotent (m : MotorState) (X : Nat) :
    motordriver_adjust_motor_speed_non_blocking
        (motordriver_adjust_motor_speed_non_blocking m X) X
      = motordriver_adjust_motor_speed_non_blocking m X := by
  unfold motordriver_adjust_motor_speed_non_blocking
  dsimp only
  split_ifs <;> simp_all

/-- C6: the emergency stop path sets both motors' `target_speed` to 0
through the non-blocking ramp and modifies nothing else: directions,
speeds, GPIO levels, PWM duty cycles and the configured rates are all
untouched, and (being the non-blocking path) nothing waits for the
ramps to converge. -/
theorem C6_stop_motors_targets_zero (ma mb : MotorState)
    (hA1 : 0 < ma.acceleration_rate) (hB1 : 0 < ma.braking_rate)
    (hA2 : 0 < mb.acceleration_rate) (hB2 : 0 < mb.braking_rate) :
    (motordriver_stop_motors ma mb).1.target_speed = 0 ∧
    (motordriver_stop_motors ma mb).2.target_speed = 0 ∧
    (motordriver_stop_motors ma mb).1.direction = ma.direction ∧
    (motordriver_stop_motors ma mb).2.direction = mb.direction ∧
    (motordriver_stop_motors ma mb).1.speed = ma.speed ∧
    (motordriver_stop_motors ma mb).2.speed = mb.speed ∧
    (motordriver_stop_motors ma mb).1.gpio_dir = ma.gpio_dir ∧
    (motordriver_stop_motors ma mb).2.gpio_dir = mb.gpio_dir ∧
    (motordriver_stop_motors ma mb).1.pwm_duty = ma.pwm_duty ∧
    (motordriver_stop_motors ma mb).2.pwm_duty = mb.pwm_duty := by
  unfold motordriver_stop_motors motordriver_adjust_motor_speed_non_blocking
  dsimp only
  split_ifs <;> simp_all <;> omega

theorem C6_witness :
    (motordriver_stop_motors motor1 motor2).1.target_speed = 0 ∧
    (motordriver_stop_motors motor1 motor2).2.target_speed = 0 ∧
    (motordriver_stop_motors motor1 motor2).1.direction = motor1.direction ∧
    (motordriver_stop_motors motor1 motor2).2.direction = motor2.direction ∧
    (motordriver_stop_motors motor1 motor2).1.speed = motor1.speed ∧
    (motordriver_stop_motors motor1 motor2).2.speed = motor2.speed ∧
    (motordriver_stop_motors motor1 motor2).1.gpio_dir = motor1.gpio_dir ∧
    (motordriver_stop_motors motor1 motor2).2.gpio_dir = motor2.gpio_dir ∧
    (motordriver_stop_motors motor1 motor2).1.pwm_duty = motor1.pwm_duty ∧
    (motordriver_stop_motors motor1 motor2).2.pwm_duty = motor2.pwm_duty :=
  C6_stop_motors_targets_zero motor1 motor2 (by decide) (by decide) (by decide) (by decide)

theorem blocking_step_frame (ok : Bool) (m : MotorState) (t : Nat) :
    (blocking_step ok m t).emergency_stop = m.emergency_stop ∧
    (blocking_step ok m t).direction = m.direction ∧
    (blocking_step ok m t).target_direction = m.target_direction ∧
    (blocking_step ok m t).target_speed = m.target_speed ∧
    (blocking_step ok m t).acceleration_rate = m.acceleration_rate ∧
    (blocking_step ok m t).acceleration_rate_delay = m.acceleration_rate_delay ∧
    (blocking_step ok m t).braking_rate = m.braking_rate ∧
    (blocking_step ok m t).braking_rate_delay = m.braking_rate_delay ∧
    (blocking_step ok m t).pwm_period = m.pwm_period ∧
    (blocking_step ok m t).gpio_dir = m.gpio_dir ∧
    (blocking_step ok m t).timer_armed = m.timer_armed := by
  cases ok <;>
  · unfold blocking_step set_speed
    dsimp only
    split_ifs <;> simp_all

theorem ramp_loop_frame : ∀ (fuel : Nat) (ok : Bool) (m : MotorState) (t : Nat)
    (r : MotorState), ramp_loop fuel ok m t = some r →
    r.emergency_stop = m.emergency_stop ∧
    r.direction = m.direction ∧
    r.target_direction = m.target_direction ∧
    r.target_speed = m.target_speed ∧
    r.acceleration_rate = m.acceleration_rate ∧
    r.acceleration_rate_delay = m.acceleration_rate_delay ∧
    r.braking_rate = m.braking_rate ∧
    r.braking_rate_delay = m.braking_rate_delay ∧
    r.pwm_period = m.pwm_period ∧
    r.gpio_dir = m.gpio_dir ∧
    r.timer_armed = m.timer_armed := by
  intro fuel
  induction fuel with
  | zero =>
    intro ok m t r h
    rw [ramp_loop] at h
    split_ifs at h with hc
    · cases h
      exact ⟨rfl, rfl, rfl, rfl, rfl, rfl, rfl, rfl, rfl, rfl, rfl⟩
  | succ n ih =>
    intro ok m t r h
    rw [ramp_loop] at h
    split_ifs at h with hc
    · cases h
      exact ⟨rfl, rfl, rfl, rfl, rfl, rfl, rfl, rfl, rfl, rfl, rfl⟩
    · obtain ⟨E, D, TD, T, A, AD, B, BD, P, G, TA⟩ := ih ok (blocking_step ok m t) t r h
      obtain ⟨e, d, td, tt, a, ad, b, bd, p, g, ta⟩ := blocking_step_frame ok m t
      exact ⟨E.trans e, D.trans d, TD.trans td, T.trans tt, A.trans a, AD.trans ad,
        B.trans b, BD.trans bd, P.trans p, G.trans g, TA.trans ta⟩

/-- One braking iteration of the blocking ramp toward target 0, in the
regular case `braking_rate ≤ speed ≤ 100`: the speed field decreases by
exactly `braking_rate`. -/
theorem blocking_step_zero (ok : Bool) (m : MotorState)
    (hbs : m.braking_rate ≤ m.speed) (hs : m.speed ≤ 100) :
    (blocking_step ok m 0).speed = m.speed - m.braking_rate := by
  have hu : usub m.speed m.braking_rate = m.speed - m.braking_rate :=
    usub_of_le hbs (by unfold U32; omega)
  cases ok <;>
  · unfold blocking_step set_speed
    dsimp only
    split_ifs <;> simp_all <;> omega

theorem ramp_loop_done (fuel : Nat) (ok : Bool) (m : MotorState) (h : m.speed = 0) :
    ramp_loop fuel ok m 0 = some m := by
  cases fuel <;> simp [ramp_loop, h]

/-- Termination of the blocking ramp toward 0 when the braking rate
divides the current speed: after `speed / braking_rate` iterations the
speed field is exactly 0. -/
theorem ramp_loop_to_zero : ∀ (k fuel : Nat) (ok : Bool) (m : MotorState),
    0 < m.braking_rate → m.speed = m.braking_rate * k → m.speed ≤ 100 → k ≤ fuel →
    ∃ r, ramp_loop fuel ok m 0 = some r ∧ r.speed = 0 := by
  intro k
  induction k with
  | zero =>
    intro fuel ok m hB hk hs hf
    refine ⟨m, ramp_loop_done fuel ok m (by omega), by omega⟩
  | succ k ih =>
    intro fuel ok m hB hk hs hf
    obtain ⟨f, rfl⟩ : ∃ f, fuel = f + 1 := ⟨fuel - 1, by omega⟩
    have hpos : 0 < m.speed := by
      have : m.braking_rate * (k + 1) ≥ m.braking_rate := Nat.le_mul_of_pos_right _ (by omega)
      omega
    have hbs : m.braking_rate ≤ m.speed := by
      have : m.braking_rate * (k + 1) ≥ m.braking_rate := Nat.le_mul_of_pos_right _ (by omega)
      omega
    rw [ramp_loop, if_neg (by omega)]
    obtain ⟨e, d, td, tt, a, ad, b, bd, p, g, ta⟩ := blocking_step_frame ok m 0
    have hsp := blocking_step_zero ok m hbs hs
    refine ih f ok (blocking_step ok m 0) (by rw [b]; omega) ?_ (by omega) (by omega)
    rw [hsp, b, hk]
    ring_nf
    omega
/-- Concrete motor refuting C2 as stated: `acceleration_rate = 0` (the
configuration error of §7) with nonzero speed. -/
def mC2 : MotorState := { motor1 with speed := 50, acceleration_rate := 0 }

theorem C2_counterexample :
    motordriver_set_dir 1 true mC2 true
      = some { mC2 with direction := true, gpio_dir := true } ∧
    mC2.speed = 50 := by decide

/-- C2 (amended): a call with the current direction changes nothing;
and provided `acceleration_rate > 0` (the blocking ramp's fail-fast
guard tests only this rate) and the braking rate divides the current
speed (≤ 100), a call with the opposite direction first drives the
speed field to exactly 0 through the blocking ramp and only then
updates the direction field and the direction GPIO. -/
theorem C2_set_dir_stops_before_flip (fuel : Nat) (ok : Bool) (m : MotorState) (dir : Bool)
    (hA : 0 < m.acceleration_rate) (hB : 0 < m.braking_rate)
    (hdvd : m.braking_rate ∣ m.speed) (hs : m.speed ≤ 100)
    (hfuel : m.speed / m.braking_rate ≤ fuel) :
    (dir = m.direction → motordriver_set_dir fuel ok m dir = some m) ∧
    (dir ≠ m.direction → ∃ r0,
      motordriver_adjust_motor_speed_blocking fuel ok m 0 = some r0 ∧
      r0.speed = 0 ∧ r0.direction = m.direction ∧
      motordriver_set_dir fuel ok m dir
        = some { r0 with direction := dir, gpio_dir := dir }) := by
  constructor
  · intro hdir
    unfold motordriver_set_dir
    rw [if_neg (by simp [hdir])]
  · intro hne
    have hk : m.speed = m.braking_rate * (m.speed / m.braking_rate) :=
      (Nat.mul_div_cancel' hdvd).symm
    obtain ⟨r0, hr0, hr0s⟩ :=
      ramp_loop_to_zero (m.speed / m.braking_rate) fuel ok m hB hk hs hfuel
    have hblock : motordriver_adjust_motor_speed_blocking fuel ok m 0 = some r0 := by
      unfold motordriver_adjust_motor_speed_blocking
      rw [if_neg (by omega)]
      dsimp only
      rw [if_neg (by omega)]
      exact hr0
    have hdirr : r0.direction = m.direction := (ramp_loop_frame fuel ok m 0 r0 hr0).2.1
    refine ⟨r0, hblock, hr0s, hdirr, ?_⟩
    unfold motordriver_set_dir
    rw [if_pos (fun hh => hne hh.symm), hblock]

/-- Concrete motor witnessing the amended C2: default configuration,
running at 60 percent. -/
def mC2w : MotorState := { motor1 with speed := 60 }

theorem C2_witness :
    (true = mC2w.direction → motordriver_set_dir 10 true mC2w true = some mC2w) ∧
    (true ≠ mC2w.direction → ∃ r0,
      motordriver_adjust_motor_speed_blocking 10 true mC2w 0 = some r0 ∧
      r0.speed = 0 ∧ r0.direction = mC2w.direction ∧
      motordriver_set_dir 10 true mC2w true
        = some { r0 with direction := true, gpio_dir := true }) :=
  C2_set_dir_stops_before_flip 10 true mC2w true (by decide) (by decide) (by decide)
    (by decide) (by decide)

/-- C9: a successful `motordriver_set_dir` never writes `target_speed`
and never touches the timer; when a direction change actually happens
(under the amended-C2 side conditions for the ramp to terminate) the
speed field is 0 afterward, so a pending nonzero async target survives
the call with the timer left unarmed. -/
theorem C9_set_dir_preserves_target (fuel : Nat) (ok : Bool) (m : MotorState) (dir : Bool)
    (r : MotorState) (h : motordriver_set_dir fuel ok m dir = some r) :
    r.target_speed = m.target_speed ∧ r.timer_armed = m.timer_armed ∧
    (m.direction ≠ dir → 0 < m.acceleration_rate → 0 < m.braking_rate →
      m.braking_rate ∣ m.speed → m.speed ≤ 100 → m.speed / m.braking_rate ≤ fuel →
      r.speed = 0) := by
  unfold motordriver_set_dir at h
  by_cases hd : m.direction ≠ dir
  · rw [if_pos hd] at h
    cases hb : motordriver_adjust_motor_speed_blocking fuel ok m 0 with
    | none => rw [hb] at h; cases h
    | some m1 =>
      rw [hb] at h
      cases h
      unfold motordriver_adjust_motor_speed_blocking at hb
      by_cases ha : m.acceleration_rate = 0
      · rw [if_pos ha] at hb
        cases hb
        exact ⟨rfl, rfl, fun _ hA _ _ _ _ => absurd ha (by omega)⟩
      · rw [if_neg ha] at hb
        dsimp only at hb
        rw [if_neg (by omega)] at hb
        obtain ⟨E, D, TD, T, A, AD, B, BD, P, G, TA⟩ := ramp_loop_frame fuel ok m 0 m1 hb
        refine ⟨T, TA, fun _ _ hB hdvd hs hfuel => ?_⟩
        have hk : m.speed = m.braking_rate * (m.speed / m.braking_rate) :=
          (Nat.mul_div_cancel' hdvd).symm
        obtain ⟨r0, hr0, hr0s⟩ :=
          ramp_loop_to_zero (m.speed / m.braking_rate) fuel ok m hB hk hs hfuel
        rw [hb] at hr0
        cases hr0
        exact hr0s
  · rw [if_neg hd] at h
    cases h
    exact ⟨rfl, rfl, fun hdd => absurd hdd hd⟩

/-- Concrete motor for the C9 scenario: converged at 60 percent with a
pending async target of 60 and the timer idle. -/
def mC9 : MotorState := { motor1 with speed := 60, target_speed := 60 }

/-- Result of `motordriver_set_dir` on `mC9`: stopped, direction
flipped, async target still 60, timer unarmed. -/
def rC9 : MotorState := { mC9 with speed := 0, direction := true, gpio_dir := true }

theorem C9_witness :
    rC9.target_speed = mC9.target_speed ∧ rC9.timer_armed = mC9.timer_armed ∧
    (mC9.direction ≠ true → 0 < mC9.acceleration_rate → 0 < mC9.braking_rate →
      mC9.braking_rate ∣ mC9.speed → mC9.speed ≤ 100 →
      mC9.speed / mC9.braking_rate ≤ 10 → rC9.speed = 0) :=
  C9_set_dir_preserves_target 10 true mC9 true rC9 (by decide)

/-- Concrete motor showing C4's divergence: idle at speed 0 (the last
successfully applied PWM value) with a pending async target of 50. -/
def mC4 : MotorState := { motor1 with target_speed := 50 }

/-- C4 evaluated at a failing PWM write: the tick advances the `speed`
field to 10 even though no duty cycle was written (`pwm_duty` is
unchanged), and the next tick continues from 10 to 20 instead of
retrying the same step. -/
theorem C4_speed_advances_on_pwm_failure :
    motor_speed_adjust_timer_expiry_function false mC4
      = { mC4 with speed := 10, timer_armed := true } ∧
    (motor_speed_adjust_timer_expiry_function false mC4).pwm_duty = mC4.pwm_duty ∧
    mC4.speed = 0 ∧
    (motor_speed_adjust_timer_expiry_function false
        (motor_speed_adjust_timer_expiry_function false mC4)).speed = 20 := by decide

/-- Concrete motor showing C5's divergence: `braking_rate = 0` (with a
positive acceleration rate), braking from 50 toward 0.  Its PWM period
is 0 so that one loop iteration is literally the identity on the
state. -/
def mC5 : MotorState :=
  { emergency_stop := false
    direction := false
    target_direction := false
    speed := 50
    target_speed := 0
    acceleration_rate := 10
    acceleration_rate_delay := 100
    braking_rate := 0
    braking_rate_delay := 100
    pwm_period := 0
    pwm_duty := 0
    gpio_dir := false
    timer_armed := false }

/-- C5 evaluated on the braking side: the zero-rate guard of the
blocking ramp tests only `acceleration_rate`, so with `braking_rate =
0` the function enters its loop and every iteration subtracts 0 and
leaves the state unchanged — the loop never terminates (`none` for
every fuel).  With `acceleration_rate = 0` the guard does fire and the
function returns with the state untouched. -/
theorem C5_zero_braking_rate_loops_forever :
    blocking_step true mC5 0 = mC5 ∧
    (∀ fuel, motordriver_adjust_motor_speed_blocking fuel true mC5 0 = none) ∧
    (∀ fuel t, motordriver_adjust_motor_speed_blocking fuel true mC2 t = some mC2) := by
  have hstep : blocking_step true mC5 0 = mC5 := by decide
  have hloop : ∀ fuel, ramp_loop fuel true mC5 0 = none := by
    intro fuel
    induction fuel with
    | zero => decide
    | succ n ih =>
      rw [ramp_loop, if_neg (by decide), hstep]
      exact ih
  refine ⟨hstep, fun fuel => ?_, fun fuel t => ?_⟩
  · unfold motordriver_adjust_motor_speed_blocking
    rw [if_neg (by decide)]
    dsimp only
    rw [if_neg (by decide)]
    exact hloop fuel
  · unfold motordriver_adjust_motor_speed_blocking
    rw [if_pos (by decide)]
theorem blocking_step_le100 (m : MotorState) (t : Nat) :
    (blocking_step true m t).speed ≤ 100 := by
  unfold blocking_step
  dsimp only
  split_ifs <;> (rw [set_speed_speed_true]; omega)

theorem ramp_loop_le100 : ∀ (fuel : Nat) (m : MotorState) (t : Nat) (r : MotorState),
    m.speed ≤ 100 → ramp_loop fuel true m t = some r → r.speed ≤ 100 := by
  intro fuel
  induction fuel with
  | zero =>
    intro m t r hs h
    rw [ramp_loop] at h
    split_ifs at h
    cases h
    exact hs
  | succ n ih =>
    intro m t r hs h
    rw [ramp_loop] at h
    split_ifs at h
    · cases h; exact hs
    · exact ih (blocking_step true m t) t r (blocking_step_le100 m t) h

theorem blocking_le100 (fuel : Nat) (m : MotorState) (t : Nat) (r : MotorState)
    (hs : m.speed ≤ 100)
    (h : motordriver_adjust_motor_speed_blocking fuel true m t = some r) :
    r.speed ≤ 100 := by
  unfold motordriver_adjust_motor_speed_blocking at h
  split_ifs at h with ha
  · cases h; exact hs
  all_goals (dsimp only at h; exact ramp_loop_le100 fuel m _ r hs h)

theorem blocking_frame (fuel : Nat) (ok : Bool) (m : MotorState) (t : Nat) (r : MotorState)
    (h : motordriver_adjust_motor_speed_blocking fuel ok m t = some r) :
    r.direction = m.direction ∧ r.target_speed = m.target_speed ∧
    r.timer_armed = m.timer_armed ∧ r.gpio_dir = m.gpio_dir ∧
    r.acceleration_rate = m.acceleration_rate ∧ r.braking_rate = m.braking_rate := by
  unfold motordriver_adjust_motor_speed_blocking at h
  split_ifs at h with ha
  · cases h; exact ⟨rfl, rfl, rfl, rfl, rfl, rfl⟩
  all_goals
    dsimp only at h
    obtain ⟨E, D, TD, T, A, AD, B, BD, P, G, TA⟩ := ramp_loop_frame _ _ _ _ _ h
    exact ⟨D, T, TA, G, A, B⟩

theorem set_dir_cases (fuel : Nat) (ok : Bool) (m : MotorState) (dir : Bool) (rd : MotorState)
    (h : motordriver_set_dir fuel ok m dir = some rd) :
    rd = m ∨ ∃ m1, motordriver_adjust_motor_speed_blocking fuel ok m 0 = some m1 ∧
      rd = { m1 with direction := dir, gpio_dir := dir } := by
  unfold motordriver_set_dir at h
  by_cases hd : m.direction ≠ dir
  · rw [if_pos hd] at h
    cases hb : motordriver_adjust_motor_speed_blocking fuel ok m 0 with
    | none => rw [hb] at h; cases h
    | some m1 => rw [hb] at h; cases h; exact Or.inr ⟨m1, rfl, rfl⟩
  · rw [if_neg hd] at h
    cases h
    exact Or.inl rfl

/-- C7: all speed-percentage state stays within `[0, 100]` (values
below 0 are unrepresentable since the fields are unsigned): `set_speed`
clamps any argument above 100; a tick and the non-blocking ramp
preserve the bounds, and a requested async target of 150 yields
`target_speed = 100`; the blocking ramp and the direction setter (on
the PWM-success path) keep the bounds as well. -/
theorem C7_speed_invariants (m : MotorState) (p t fuel : Nat) (dir : Bool)
    (r rd : MotorState) (hs : m.speed ≤ 100) (ht : m.target_speed ≤ 100)
    (hr : motordriver_adjust_motor_speed_blocking fuel true m t = some r)
    (hrd : motordriver_set_dir fuel true m dir = some rd) :
    (set_speed true m p).speed = min p 100 ∧
    (∀ ok, (set_speed ok m p).speed ≤ 100 ∧ (set_speed ok m p).target_speed ≤ 100) ∧
    (∀ ok, (motor_speed_adjust_timer_expiry_function ok m).speed ≤ 100 ∧
      (motor_speed_adjust_timer_expiry_function ok m).target_speed ≤ 100) ∧
    (motordriver_adjust_motor_speed_non_blocking m t).target_speed ≤ 100 ∧
    (motordriver_adjust_motor_speed_non_blocking m t).speed = m.speed ∧
    (0 < m.acceleration_rate → 0 < m.braking_rate →
      (motordriver_adjust_motor_speed_non_blocking m 150).target_speed = 100) ∧
    r.speed ≤ 100 ∧ r.target_speed ≤ 100 ∧ rd.speed ≤ 100 ∧ rd.target_speed ≤ 100 := by
  refine ⟨set_speed_speed_true m p, ?_, ?_, ?_, ?_, ?_, ?_, ?_, ?_, ?_⟩
  · intro ok
    have hf := (set_speed_frame ok m p).2.2.2.1
    cases ok
    · rw [set_speed_speed_false, hf]
      exact ⟨hs, ht⟩
    · rw [set_speed_speed_true, hf]
      exact ⟨by omega, ht⟩
  · intro ok
    have hT := (tick_frame ok m).2.2.2.1
    rcases Nat.lt_trichotomy m.speed m.target_speed with h | h | h
    · rw [tick_speed_accel ok m h ht, hT]
      have := Nat.min_le_right m.acceleration_rate (m.target_speed - m.speed)
      exact ⟨by omega, ht⟩
    · rw [tick_idle ok m h]
      exact ⟨hs, ht⟩
    · rw [tick_speed_brake ok m h hs, hT]
      exact ⟨by omega, ht⟩
  · unfold motordriver_adjust_motor_speed_non_blocking
    dsimp only
    split_ifs <;> simp_all
  · unfold motordriver_adjust_motor_speed_non_blocking
    dsimp only
    split_ifs <;> simp_all
  · intro hA hB
    unfold motordriver_adjust_motor_speed_non_blocking
    dsimp only
    have hmin : min (150 : Nat) 100 = 100 := by decide
    split_ifs with h1 h2
    · rcases h1 with h1 | h1 <;> omega
    · show min (150 : Nat) 100 = 100
      exact hmin
    · push_neg at h2
      rw [h2, hmin]
  · exact blocking_le100 fuel m t r hs hr
  · rw [(blocking_frame fuel true m t r hr).2.1]
    exact ht
  · rcases set_dir_cases fuel true m dir rd hrd with hcase | ⟨m1, hm1, hrdeq⟩
    · rw [hcase]; exact hs
    · rw [hrdeq]
      exact blocking_le100 fuel m 0 m1 hs hm1
  · rcases set_dir_cases fuel true m dir rd hrd with hcase | ⟨m1, hm1, hrdeq⟩
    · rw [hcase]; exact ht
    · have hT := (blocking_frame fuel true m 0 m1 hm1).2.1
      rw [hrdeq]
      show m1.target_speed ≤ 100
      rw [hT]
      exact ht

/-- Result of the blocking ramp from `motor1` toward a requested 150
(clamped to 100): full speed with the full duty cycle applied. -/
def rC7 : MotorState := { motor1 with speed := 100, pwm_duty := 20000000 }

/-- Result of `motordriver_set_dir motor1 true` (already stopped). -/
def rdC7 : MotorState := { motor1 with direction := true, gpio_dir := true }

theorem C7_witness :
    (set_speed true motor1 150).speed = min 150 100 ∧
    (∀ ok, (set_speed ok motor1 150).speed ≤ 100 ∧
      (set_speed ok motor1 150).target_speed ≤ 100) ∧
    (∀ ok, (motor_speed_adjust_timer_expiry_function ok motor1).speed ≤ 100 ∧
      (motor_speed_adjust_timer_expiry_function ok motor1).target_speed ≤ 100) ∧
    (motordriver_adjust_motor_speed_non_blocking motor1 150).target_speed ≤ 100 ∧
    (motordriver_adjust_motor_speed_non_blocking motor1 150).speed = motor1.speed ∧
    (0 < motor1.acceleration_rate → 0 < motor1.braking_rate →
      (motordriver_adjust_motor_speed_non_blocking motor1 150).target_speed = 100) ∧
    rC7.speed ≤ 100 ∧ rC7.target_speed ≤ 100 ∧ rdC7.speed ≤ 100 ∧ rdC7.target_speed ≤ 100 :=
  C7_speed_invariants motor1 150 150 10 true rC7 rdC7 (by decide) (by decide) (by decide)
    (by decide)
theorem adjust_frame (m : MotorState) (t : Nat) :
    (motordriver_adjust_motor_speed_non_blocking m t).speed = m.speed ∧
    (motordriver_adjust_motor_speed_non_blocking m t).direction = m.direction ∧
    (motordriver_adjust_motor_speed_non_blocking m t).gpio_dir = m.gpio_dir ∧
    (motordriver_adjust_motor_speed_non_blocking m t).acceleration_rate
      = m.acceleration_rate ∧
    (motordriver_adjust_motor_speed_non_blocking m t).braking_rate = m.braking_rate ∧
    (motordriver_adjust_motor_speed_non_blocking m t).pwm_period = m.pwm_period ∧
    (motordriver_adjust_motor_speed_non_blocking m t).pwm_duty = m.pwm_duty := by
  unfold motordriver_adjust_motor_speed_non_blocking
  dsimp only
  split_ifs <;> simp_all

theorem adjust_target (m : MotorState) (t : Nat)
    (hA : 0 < m.acceleration_rate) (hB : 0 < m.braking_rate) :
    (motordriver_adjust_motor_speed_non_blocking m t).target_speed = min t 100 := by
  unfold motordriver_adjust_motor_speed_non_blocking
  dsimp only
  split_ifs with h1 h2
  · rcases h1 with h1 | h1 <;> omega
  · rfl
  · push_neg at h2
    exact h2

/-- Effect of the coordinator's stop-and-poll phase on one motor that
must reverse: issue the async ramp to 0, then let the timer run; a
well-configured motor that starts converged ends with its speed field
at 0 and nothing else (besides `target_speed` and the PWM bookkeeping)
changed. -/
theorem stop_phase (fuel : Nat) (m : MotorState)
    (hA : 0 < m.acceleration_rate) (hB : 0 < m.braking_rate)
    (hi : m.speed = m.target_speed) (hs : m.speed ≤ 100) (hf : 100 ≤ fuel) :
    ((motor_speed_adjust_timer_expiry_function true)^[fuel]
        (motordriver_adjust_motor_speed_non_blocking m 0)).speed = 0 ∧
    ((motor_speed_adjust_timer_expiry_function true)^[fuel]
        (motordriver_adjust_motor_speed_non_blocking m 0)).direction = m.direction ∧
    ((motor_speed_adjust_timer_expiry_function true)^[fuel]
        (motordriver_adjust_motor_speed_non_blocking m 0)).acceleration_rate
      = m.acceleration_rate ∧
    ((motor_speed_adjust_timer_expiry_function true)^[fuel]
        (motordriver_adjust_motor_speed_non_blocking m 0)).braking_rate
      = m.braking_rate ∧
    ((motor_speed_adjust_timer_expiry_function true)^[fuel]
        (motordriver_adjust_motor_speed_non_blocking m 0)).target_speed = 0 ∧
    ((motor_speed_adjust_timer_expiry_function true)^[fuel]
        (motordriver_adjust_motor_speed_non_blocking m 0)).gpio_dir = m.gpio_dir := by
  set a := motordriver_adjust_motor_speed_non_blocking m 0 with ha
  obtain ⟨fS, fD, fG, fA, fB, fP, fY⟩ := adjust_frame m 0
  rw [← ha] at fS fD fG fA fB fP fY
  have hta : a.target_speed = 0 := by
    rw [ha, adjust_target m 0 hA hB]
    decide
  have hA2 : 0 < a.acceleration_rate := by omega
  have hB2 : 0 < a.braking_rate := by omega
  have hs2 : a.speed ≤ 100 := by omega
  have ht2 : a.target_speed ≤ 100 := by omega
  have hrt : rampTicks a ≤ 100 := by
    unfold rampTicks
    rcases Nat.eq_zero_or_pos a.speed with hz | hp
    · rw [if_pos (by omega), hta, hz, ceilDiv_zero]
      omega
    · rw [if_neg (by omega), hta]
      have hcd : ceilDiv (a.speed - 0) a.braking_rate ≤ a.speed - 0 := ceilDiv_le hB2
      omega
  have hconv := tick_conv_at a fuel hA2 hB2 hs2 ht2 (by omega)
  obtain ⟨D, T, A, B, G, P, E, TD, AD, BD⟩ := iterate_tick_frame fuel true a
  refine ⟨?_, D.trans fD, ?_, ?_, ?_, G.trans fG⟩
  · rw [hconv.1, hta]
  all_goals omega

/-- A direction change requested on an already-stopped motor: the
blocking ramp inside `motordriver_set_dir` exits at once and only the
direction field and the direction GPIO change. -/
theorem set_dir_quick (fuel : Nat) (m : MotorState) (d : Bool)
    (hz : m.speed = 0) (hA : m.acceleration_rate ≠ 0) (hd : m.direction ≠ d) :
    motordriver_set_dir fuel true m d
      = some { m with direction := d, gpio_dir := d } := by
  unfold motordriver_set_dir motordriver_adjust_motor_speed_blocking
  rw [if_pos hd, if_neg hA]
  dsimp only
  rw [if_neg (by omega), ramp_loop_done fuel true m hz]

/-- Resuming a motor after the coordinator flipped its direction: the
final non-blocking call sets the clamped target and touches neither the
just-written direction/GPIO nor the speed. -/
theorem coordinator_motor_resume (p : MotorState) (s : Nat) (d : Bool)
    (hA : 0 < p.acceleration_rate) (hB : 0 < p.braking_rate) :
    (motordriver_adjust_motor_speed_non_blocking
        { p with direction := d, gpio_dir := d } s).direction = d ∧
    (motordriver_adjust_motor_speed_non_blocking
        { p with direction := d, gpio_dir := d } s).gpio_dir = d ∧
    (motordriver_adjust_motor_speed_non_blocking
        { p with direction := d, gpio_dir := d } s).speed = p.speed ∧
    (motordriver_adjust_motor_speed_non_blocking
        { p with direction := d, gpio_dir := d } s).target_speed = min s 100 := by
  have hf := adjust_frame { p with direction := d, gpio_dir := d } s
  exact ⟨hf.2.1, hf.2.2.1, hf.1,
    adjust_target _ s (by simpa using hA) (by simpa using hB)⟩

/-- C3: under valid configuration (positive rates) and motors starting
converged, `set_motors` issues the async stop for exactly the motors
whose direction differs from the request, waits until each such motor
has ramped (by its own timer expiries) to speed 0, flips the direction
of exactly those motors, and finally issues the async ramp with the
clamped requested speeds for both motors; a motor whose requested
direction matches keeps its direction, speed and GPIO untouched by the
stop/flip phase. -/
theorem C3_set_motors_stop_before_reverse (fuel : Nat) (ma mb : MotorState)
    (s1 s2 : Nat) (d1 d2 : Bool)
    (hA1 : 0 < ma.acceleration_rate) (hB1 : 0 < ma.braking_rate)
    (hA2 : 0 < mb.acceleration_rate) (hB2 : 0 < mb.braking_rate)
    (hi1 : ma.speed = ma.target_speed) (hi2 : mb.speed = mb.target_speed)
    (hs1 : ma.speed ≤ 100) (hs2 : mb.speed ≤ 100) (hfuel : 100 ≤ fuel) :
    ∃ r1 r2, set_motors fuel ma mb s1 s2 d1 d2 = some (r1, r2) ∧
      r1.direction = d1 ∧ r2.direction = d2 ∧
      r1.target_speed = min s1 100 ∧ r2.target_speed = min s2 100 ∧
      (ma.direction = d1 → r1.speed = ma.speed ∧ r1.gpio_dir = ma.gpio_dir) ∧
      (mb.direction = d2 → r2.speed = mb.speed ∧ r2.gpio_dir = mb.gpio_dir) ∧
      (ma.direction ≠ d1 → r1.speed = 0 ∧ r1.gpio_dir = d1 ∧
        ((motor_speed_adjust_timer_expiry_function true)^[fuel]
          (motordriver_adjust_motor_speed_non_blocking ma 0)).speed = 0) ∧
      (mb.direction ≠ d2 → r2.speed = 0 ∧ r2.gpio_dir = d2 ∧
        ((motor_speed_adjust_timer_expiry_function true)^[fuel]
          (motordriver_adjust_motor_speed_non_blocking mb 0)).speed = 0) := by
  by_cases hn1 : ma.direction = d1 <;> by_cases hn2 : mb.direction = d2
  · have hne1 : ¬(ma.direction ≠ d1) := fun hh => hh hn1
    have hne2 : ¬(mb.direction ≠ d2) := fun hh => hh hn2
    refine ⟨motordriver_adjust_motor_speed_non_blocking ma s1,
        motordriver_adjust_motor_speed_non_blocking mb s2, ?_, ?_, ?_, ?_, ?_, ?_, ?_, ?_, ?_⟩
    · unfold set_motors
      dsimp only
      simp only [if_neg hne1, if_neg hne2]
      rw [if_neg (by rintro (⟨hh, hc⟩ | ⟨hh, hc⟩) <;> first | exact hne1 hh | exact hne2 hh)]
    · rw [(adjust_frame ma s1).2.1]; exact hn1
    · rw [(adjust_frame mb s2).2.1]; exact hn2
    · exact adjust_target ma s1 hA1 hB1
    · exact adjust_target mb s2 hA2 hB2
    · intro hdummy
      exact ⟨(adjust_frame ma s1).1, (adjust_frame ma s1).2.2.1⟩
    · intro hdummy
      exact ⟨(adjust_frame mb s2).1, (adjust_frame mb s2).2.2.1⟩
    · intro hh; exact absurd hn1 hh
    · intro hh; exact absurd hn2 hh
  · have hne1 : ¬(ma.direction ≠ d1) := fun hh => hh hn1
    have hPfull2 := stop_phase fuel mb hA2 hB2 hi2 hs2 hfuel
    obtain ⟨hPz2, hPd2, hPa2, hPb2, hPt2, hPg2⟩ := hPfull2
    have hPA2 : 0 < ((motor_speed_adjust_timer_expiry_function true)^[fuel]
          (motordriver_adjust_motor_speed_non_blocking mb 0)).acceleration_rate := by rw [hPa2]; exact hA2
    have hPB2 : 0 < ((motor_speed_adjust_timer_expiry_function true)^[fuel]
          (motordriver_adjust_motor_speed_non_blocking mb 0)).braking_rate := by rw [hPb2]; exact hB2
    have hdne2 : ((motor_speed_adjust_timer_expiry_function true)^[fuel]
          (motordriver_adjust_motor_speed_non_blocking mb 0)).direction ≠ d2 := by rw [hPd2]; exact hn2
    have hsd2 := set_dir_quick fuel ((motor_speed_adjust_timer_expiry_function true)^[fuel]
          (motordriver_adjust_motor_speed_non_blocking mb 0)) d2 hPz2 (by omega) hdne2
    have hres2 := coordinator_motor_resume ((motor_speed_adjust_timer_expiry_function true)^[fuel]
          (motordriver_adjust_motor_speed_non_blocking mb 0)) s2 d2 hPA2 hPB2
    refine ⟨motordriver_adjust_motor_speed_non_blocking ma s1,
        motordriver_adjust_motor_speed_non_blocking { ((motor_speed_adjust_timer_expiry_function true)^[fuel]
          (motordriver_adjust_motor_speed_non_blocking mb 0)) with direction := d2, gpio_dir := d2 } s2, ?_, ?_, ?_, ?_, ?_, ?_, ?_, ?_, ?_⟩
    · unfold set_motors
      dsimp only
      simp only [if_neg hne1, if_pos hn2]
      rw [if_neg (by rintro (⟨hh, hc⟩ | ⟨hh, hc⟩) <;> first | exact hne1 hh | exact hc hPz2),
        hsd2]
    · rw [(adjust_frame ma s1).2.1]; exact hn1
    · exact hres2.1
    · exact adjust_target ma s1 hA1 hB1
    · exact hres2.2.2.2
    · intro hdummy
      exact ⟨(adjust_frame ma s1).1, (adjust_frame ma s1).2.2.1⟩
    · intro hh; exact absurd hh hn2
    · intro hh; exact absurd hn1 hh
    · intro hdummy
      refine ⟨?_, hres2.2.1, hPz2⟩
      rw [hres2.2.2.1]
      exact hPz2
  · have hne2 : ¬(mb.direction ≠ d2) := fun hh => hh hn2
    have hPfull1 := stop_phase fuel ma hA1 hB1 hi1 hs1 hfuel
    obtain ⟨hPz1, hPd1, hPa1, hPb1, hPt1, hPg1⟩ := hPfull1
    have hPA1 : 0 < ((motor_speed_adjust_timer_expiry_function true)^[fuel]
          (motordriver_adjust_motor_speed_non_blocking ma 0)).acceleration_rate := by rw [hPa1]; exact hA1
    have hPB1 : 0 < ((motor_speed_adjust_timer_expiry_function true)^[fuel]
          (motordriver_adjust_motor_speed_non_blocking ma 0)).braking_rate := by rw [hPb1]; exact hB1
    have hdne1 : ((motor_speed_adjust_timer_expiry_function true)^[fuel]
          (motordriver_adjust_motor_speed_non_blocking ma 0)).direction ≠ d1 := by rw [hPd1]; exact hn1
    have hsd1 := set_dir_quick fuel ((motor_speed_adjust_timer_expiry_function true)^[fuel]
          (motordriver_adjust_motor_speed_non_blocking ma 0)) d1 hPz1 (by omega) hdne1
    have hres1 := coordinator_motor_resume ((motor_speed_adjust_timer_expiry_function true)^[fuel]
          (motordriver_adjust_motor_speed_non_blocking ma 0)) s1 d1 hPA1 hPB1
    refine ⟨motordriver_adjust_motor_speed_non_blocking { ((motor_speed_adjust_timer_expiry_function true)^[fuel]
          (motordriver_adjust_motor_speed_non_blocking ma 0)) with direction := d1, gpio_dir := d1 } s1,
        motordriver_adjust_motor_speed_non_blocking mb s2, ?_, ?_, ?_, ?_, ?_, ?_, ?_, ?_, ?_⟩
    · unfold set_motors
      dsimp only
      simp only [if_pos hn1, if_neg hne2]
      rw [if_neg (by rintro (⟨hh, hc⟩ | ⟨hh, hc⟩) <;> first | exact hc hPz1 | exact hne2 hh),
        hsd1]
    · exact hres1.1
    · rw [(adjust_frame mb s2).2.1]; exact hn2
    · exact hres1.2.2.2
    · exact adjust_target mb s2 hA2 hB2
    · intro hh; exact absurd hh hn1
    · intro hdummy
      exact ⟨(adjust_frame mb s2).1, (adjust_frame mb s2).2.2.1⟩
    · intro hdummy
      refine ⟨?_, hres1.2.1, hPz1⟩
      rw [hres1.2.2.1]
      exact hPz1
    · intro hh; exact absurd hn2 hh
  · have hPfull1 := stop_phase fuel ma hA1 hB1 hi1 hs1 hfuel
    obtain ⟨hPz1, hPd1, hPa1, hPb1, hPt1, hPg1⟩ := hPfull1
    have hPA1 : 0 < ((motor_speed_adjust_timer_expiry_function true)^[fuel]
          (motordriver_adjust_motor_speed_non_blocking ma 0)).acceleration_rate := by rw [hPa1]; exact hA1
    have hPB1 : 0 < ((motor_speed_adjust_timer_expiry_function true)^[fuel]
          (motordriver_adjust_motor_speed_non_blocking ma 0)).braking_rate := by rw [hPb1]; exact hB1
    have hdne1 : ((motor_speed_adjust_timer_expiry_function true)^[fuel]
          (motordriver_adjust_motor_speed_non_blocking ma 0)).direction ≠ d1 := by rw [hPd1]; exact hn1
    have hsd1 := set_dir_quick fuel ((motor_speed_adjust_timer_expiry_function true)^[fuel]
          (motordriver_adjust_motor_speed_non_blocking ma 0)) d1 hPz1 (by omega) hdne1
    have hres1 := coordinator_motor_resume ((motor_speed_adjust_timer_expiry_function true)^[fuel]
          (motordriver_adjust_motor_speed_non_blocking ma 0)) s1 d1 hPA1 hPB1
    have hPfull2 := stop_phase fuel mb hA2 hB2 hi2 hs2 hfuel
    obtain ⟨hPz2, hPd2, hPa2, hPb2, hPt2, hPg2⟩ := hPfull2
    have hPA2 : 0 < ((motor_speed_adjust_timer_expiry_function true)^[fuel]
          (motordriver_adjust_motor_speed_non_blocking mb 0)).acceleration_rate := by rw [hPa2]; exact hA2
    have hPB2 : 0 < ((motor_speed_adjust_timer_expiry_function true)^[fuel]
          (motordriver_adjust_motor_speed_non_blocking mb 0)).braking_rate := by rw [hPb2]; exact hB2
    have hdne2 : ((motor_speed_adjust_timer_expiry_function true)^[fuel]
          (motordriver_adjust_motor_speed_non_blocking mb 0)).direction ≠ d2 := by rw [hPd2]; exact hn2
    have hsd2 := set_dir_quick fuel ((motor_speed_adjust_timer_expiry_function true)^[fuel]
          (motordriver_adjust_motor_speed_non_blocking mb 0)) d2 hPz2 (by omega) hdne2
    have hres2 := coordinator_motor_resume ((motor_speed_adjust_timer_expiry_function true)^[fuel]
          (motordriver_adjust_motor_speed_non_blocking mb 0)) s2 d2 hPA2 hPB2
    refine ⟨motordriver_adjust_motor_speed_non_blocking { ((motor_speed_adjust_timer_expiry_function true)^[fuel]
          (motordriver_adjust_motor_speed_non_blocking ma 0)) with direction := d1, gpio_dir := d1 } s1,
        motordriver_adjust_motor_speed_non_blocking { ((motor_speed_adjust_timer_expiry_function true)^[fuel]
          (motordriver_adjust_motor_speed_non_blocking mb 0)) with direction := d2, gpio_dir := d2 } s2, ?_, ?_, ?_, ?_, ?_, ?_, ?_, ?_, ?_⟩
    · unfold set_motors
      dsimp only
      simp only [if_pos hn1, if_pos hn2]
      rw [if_neg (by rintro (⟨hh, hc⟩ | ⟨hh, hc⟩) <;> first | exact hc hPz1 | exact hc hPz2),
        hsd1, hsd2]
    · exact hres1.1
    · exact hres2.1
    · exact hres1.2.2.2
    · exact hres2.2.2.2
    · intro hh; exact absurd hh hn1
    · intro hh; exact absurd hh hn2
    · intro hdummy
      refine ⟨?_, hres1.2.1, hPz1⟩
      rw [hres1.2.2.1]
      exact hPz1
    · intro hdummy
      refine ⟨?_, hres2.2.1, hPz2⟩
      rw [hres2.2.2.1]
      exact hPz2

/-- Motor 1 of the coordinator scenario: converged at 60 percent,
direction false. -/
def mC3a : MotorState := { motor1 with speed := 60, target_speed := 60 }

theorem C3_witness :
    ∃ r1 r2, set_motors 100 mC3a motor2 40 0 true false = some (r1, r2) ∧
      r1.direction = true ∧ r2.direction = false ∧
      r1.target_speed = min 40 100 ∧ r2.target_speed = min 0 100 ∧
      (mC3a.direction = true → r1.speed = mC3a.speed ∧ r1.gpio_dir = mC3a.gpio_dir) ∧
      (motor2.direction = false → r2.speed = motor2.speed ∧ r2.gpio_dir = motor2.gpio_dir) ∧
      (mC3a.direction ≠ true → r1.speed = 0 ∧ r1.gpio_dir = true ∧
        ((motor_speed_adjust_timer_expiry_function true)^[100]
          (motordriver_adjust_motor_speed_non_blocking mC3a 0)).speed = 0) ∧
      (motor2.direction ≠ false → r2.speed = 0 ∧ r2.gpio_dir = false ∧
        ((motor_speed_adjust_timer_expiry_function true)^[100]
          (motordriver_adjust_motor_speed_non_blocking motor2 0)).speed = 0) :=
  C3_set_motors_stop_before_reverse 100 mC3a motor2 40 0 true false (by decide) (by decide)
    (by decide) (by decide) (by decide) (by decide) (by decide) (by decide) (by decide)
end PlutoPico
